import Mathlib

/-!
# Verification of the chess-llm replay core

Shallow embedding of the move-notation parser, the legality/hallucination
classifier and the replay controller of the `chess-llm` website client
(`src/website/client/src/lib/chess-logic.ts`,
`src/website/client/src/hooks/useChessReplay.ts`,
`src/website/client/src/components/MoveHistory.tsx`), together with a model
of the external Board Oracle (the `chess.js` rules engine) that these
components call.

Conventions:
* JS strings are Lean `String`s; JS `null`/`undefined` optional values are
  `Option`s, with JS truthiness of strings modelled explicitly (`""` falsy).
* The Board Oracle (`chess.js`) is an external dependency whose source is
  not part of the repository; its operations (`move`, `moves`, `get`,
  `put`, `remove`, `board`) are modelled from the spec's oracle contract
  (§6) and the standard rules of chess.  Every such definition is marked
  `Modelled from the spec:` in its doc comment.
-/

namespace ChessLLM

/-- Piece colors, `'w'`/`'b'` of chess.js. -/
inductive Color where
  | w
  | b
deriving DecidableEq, Repr

/-- The opposite color. -/
def Color.other : Color → Color
  | .w => .b
  | .b => .w

/-- Piece symbols `'p' | 'n' | 'b' | 'r' | 'q' | 'k'` of chess.js. -/
inductive PieceType where
  | p
  | n
  | b
  | r
  | q
  | k
deriving DecidableEq, Repr

/-- A piece as chess.js reports it: type plus color. -/
structure Piece where
  type : PieceType
  color : Color
deriving DecidableEq, Repr

/-- A board square as (file, rank), both `0`-based: `(0,0)` is a1,
`(7,7)` is h8. -/
abbrev Sq := Fin 8 × Fin 8

/-- The file letter of a square (`'a'`-`'h'`). -/
def fileChar (sq : Sq) : Char := Char.ofNat ('a'.toNat + sq.1.val)

/-- The rank digit of a square (`'1'`-`'8'`). -/
def rankChar (sq : Sq) : Char := Char.ofNat ('1'.toNat + sq.2.val)

/-- Algebraic name of a square, e.g. `"e4"`. -/
def sqName (sq : Sq) : String := String.mk [fileChar sq, rankChar sq]

/-- Parse a file letter. -/
def parseFileChar (c : Char) : Option (Fin 8) :=
  if h : 'a'.toNat ≤ c.toNat ∧ c.toNat < 'a'.toNat + 8 then
    some ⟨c.toNat - 'a'.toNat, by omega⟩
  else none

/-- Parse a rank digit. -/
def parseRankChar (c : Char) : Option (Fin 8) :=
  if h : '1'.toNat ≤ c.toNat ∧ c.toNat < '1'.toNat + 8 then
    some ⟨c.toNat - '1'.toNat, by omega⟩
  else none

/-- Parse a two-character algebraic square name; `none` on anything else
(chess.js rejects strings outside its square table). -/
def parseSq (s : String) : Option Sq :=
  match s.toList with
  | [cf, cr] =>
    match parseFileChar cf, parseRankChar cr with
    | some f, some r => some (f, r)
    | _, _ => none
  | _ => none

/-- Whether the first list starts with the second one. -/
def leadsWith : List Char → List Char → Bool
  | _, [] => true
  | [], _ :: _ => false
  | a :: as, b :: bs => a = b && leadsWith as bs

/-- Substring search on char lists. -/
def subSearch : List Char → List Char → Bool
  | hay, sub =>
    leadsWith hay sub ||
      match hay with
      | [] => false
      | _ :: t => subSearch t sub

/-- Whether `sub` occurs as a contiguous substring of `hay`: the JS
`String.prototype.includes` used on square names. -/
def strContains (hay sub : String) : Bool :=
  subSearch hay.toList sub.toList

/-- JS truthiness of an optional string: `null`/`undefined` and `""` are
falsy. -/
def strTruthy : Option String → Bool
  | none => false
  | some s => s ≠ ""

/-- Whether a string contains a given character. -/
def strHasChar (s : String) (c : Char) : Bool := s.toList.contains c

/-- `san.replace(/[+#?!]/g, '')` of `parseMove`: drop every decorator
character. -/
def cleanStr (s : String) : String :=
  String.mk (s.toList.filter (fun c => !(['+', '#', '?', '!'].contains c)))

/-- Lowercase piece letter of an uppercase SAN piece letter
(`pieceChar.toLowerCase() as PieceSymbol`, with the `'P'` default). -/
def pieceTypeOfSanChar : Char → PieceType
  | 'R' => .r
  | 'N' => .n
  | 'B' => .b
  | 'Q' => .q
  | 'K' => .k
  | _ => .p

/-- The regex `^([a-h][1-8])([a-h][1-8])([qrbn])?$` of `parseMove`
(coordinate/UCI notation), returning (source, target, promotion letter). -/
def uciMatch (s : String) : Option (String × String × Option Char) :=
  match s.toList with
  | [a, b, c, d] =>
    if (parseFileChar a).isSome && (parseRankChar b).isSome &&
        (parseFileChar c).isSome && (parseRankChar d).isSome then
      some (String.mk [a, b], String.mk [c, d], none)
    else none
  | [a, b, c, d, e] =>
    if (parseFileChar a).isSome && (parseRankChar b).isSome &&
        (parseFileChar c).isSome && (parseRankChar d).isSome &&
        ['q', 'r', 'b', 'n'].contains e then
      some (String.mk [a, b], String.mk [c, d], some e)
    else none
  | _ => none

/-- Character class `[a-h1-8]` (SAN disambiguation fragment). -/
def sanClass (c : Char) : Bool :=
  (parseFileChar c).isSome || (parseRankChar c).isSome

/-- Tail of the SAN regex after the disambiguation fragment:
`(x)?([a-h][1-8])(=[RNBQ])?$`, returning (capture?, target, promotion).
The capture consumption is deterministic because `x` is not a file
letter. -/
def sanTail (l : List Char) : Option (Bool × String × Option Char) :=
  let pair : Bool × List Char :=
    match l with
    | 'x' :: t => (true, t)
    | _ => (false, l)
  match pair.2 with
  | [cf, cr] =>
    if (parseFileChar cf).isSome && (parseRankChar cr).isSome then
      some (pair.1, String.mk [cf, cr], none)
    else none
  | [cf, cr, '=', pc] =>
    if (parseFileChar cf).isSome && (parseRankChar cr).isSome &&
        ['R', 'N', 'B', 'Q'].contains pc then
      some (pair.1, String.mk [cf, cr], some pc)
    else none
  | _ => none

/-- Try to read a disambiguation fragment of exactly `k` characters of
class `[a-h1-8]` and then the regex tail. -/
def sanDisTry (l : List Char) (k : Nat) :
    Option (String × Bool × String × Option Char) :=
  let pre := l.take k
  if pre.length = k && pre.all sanClass then
    (sanTail (l.drop k)).map (fun x => (String.mk pre, x))
  else none

/-- Body of the SAN regex after the optional piece letter, emulating the
greedy `([a-h1-8]{0,2})?` group (the regex engine tries two characters,
then one, then none). -/
def sanCore (l : List Char) : Option (String × Bool × String × Option Char) :=
  (sanDisTry l 2).or ((sanDisTry l 1).or (sanDisTry l 0))

/-- The regex `^([RNBQK])?([a-h1-8]{0,2})?(x)?([a-h][1-8])(=[RNBQ])?$` of
`parseMove`, returning (piece letter, disambiguation, capture?, target,
promotion letter).  The leading piece-letter group is deterministic
because uppercase letters are in no later character class. -/
def sanMatch (s : String) :
    Option (Option Char × String × Bool × String × Option Char) :=
  match s.toList with
  | [] => none
  | c :: t =>
    if ['R', 'N', 'B', 'Q', 'K'].contains c then
      (sanCore t).map (fun x => (some c, x))
    else
      (sanCore (c :: t)).map (fun x => ((none : Option Char), x))

/-- `ParsedMove` of chess-logic.ts: the structured result of `parseMove`.
For coordinate (UCI) input the source square is stored in
`disambiguation`, exactly as the source does. -/
structure ParsedMove where
  san : String
  pieceType : PieceType
  targetSquare : String
  isCapture : Bool
  isCheck : Bool
  isMate : Bool
  promotion : Option String := none
  disambiguation : Option String := none
deriving DecidableEq, Repr

/-- `parseMove` of chess-logic.ts: parses a chess move string (SAN or
UCI), returning `none` (the JS `null`) when nothing matches. -/
def parseMove (san : String) : Option ParsedMove :=
  if san = "" then none
  else
    let cleanSan := cleanStr san
    match uciMatch cleanSan with
    | some (src, dst, promo) =>
      some { san := san, pieceType := .p, targetSquare := dst,
             isCapture := false, isCheck := strHasChar san '+',
             isMate := strHasChar san '#',
             promotion := promo.map (fun c => String.mk [c]),
             disambiguation := some src }
    | none =>
      match sanMatch cleanSan with
      | some (pieceChar, dis, cap, dst, promo) =>
        some { san := san,
               pieceType := pieceTypeOfSanChar (pieceChar.getD 'P'),
               targetSquare := dst, isCapture := cap,
               isCheck := strHasChar san '+', isMate := strHasChar san '#',
               promotion := promo.map (fun c => String.mk [c]),
               disambiguation := if dis = "" then none else some dis }
      | none =>
        if cleanSan = "O-O" || cleanSan = "0-0" then
          some { san := san, pieceType := .k, targetSquare := "g",
                 isCapture := false, isCheck := strHasChar san '+',
                 isMate := strHasChar san '#' }
        else if cleanSan = "O-O-O" || cleanSan = "0-0-0" then
          some { san := san, pieceType := .k, targetSquare := "c",
                 isCapture := false, isCheck := strHasChar san '+',
                 isMate := strHasChar san '#' }
        else none

/-! ## Board Oracle model

Modelled from the spec: the Board Oracle (§2, §6) is the external
`chess.js` rules engine, not part of this repository.  The spec requires
it to load/serialize positions, apply moves with success/failure
reporting, enumerate legal moves as (piece type, source, target) triples,
and report the piece occupying a square (§6).  The definitions below
implement a standard chess rules engine satisfying that contract; FEN
strings are modelled by their parsed form, the `Position` structure. -/

/-- Castling rights, one flag per side and wing. -/
structure CastlingRights where
  wk : Bool
  wq : Bool
  bk : Bool
  bq : Bool
deriving DecidableEq, Repr

/-- Modelled from the spec: a chess position (the parsed form of a FEN
string — piece placement, side to move, castling rights, en-passant
square, halfmove clock, fullmove number). -/
structure Position where
  board : Sq → Option Piece
  turn : Color
  castling : CastlingRights
  ep : Option Sq := none
  halfmove : Nat := 0
  fullmove : Nat := 1

/-- The squares in the scan order of chess.js `board()`: rank 8 down to
rank 1, file a to file h within a rank. -/
def scanSquares : List Sq :=
  (List.finRange 8).reverse.flatMap (fun r => (List.finRange 8).map (fun f => (f, r)))

/-- Offset a square by a (file, rank) delta, `none` when off the board. -/
def shift (sq : Sq) (d : Int × Int) : Option Sq :=
  let f : Int := (sq.1.val : Int) + d.1
  let r : Int := (sq.2.val : Int) + d.2
  if h : 0 ≤ f ∧ f < 8 ∧ 0 ≤ r ∧ r < 8 then
    some (⟨f.toNat, by omega⟩, ⟨r.toNat, by omega⟩)
  else none

/-- First occupied square along a direction (fuel-bounded ray walk). -/
def firstAlong (b : Sq → Option Piece) : Nat → Sq → Int × Int → Option (Sq × Piece)
  | 0, _, _ => none
  | fuel + 1, cur, d =>
    match shift cur d with
    | none => none
    | some nxt =>
      match b nxt with
      | some pc => some (nxt, pc)
      | none => firstAlong b fuel nxt d

/-- Knight move deltas. -/
def knightDeltas : List (Int × Int) :=
  [(1, 2), (2, 1), (2, -1), (1, -2), (-1, -2), (-2, -1), (-2, 1), (-1, 2)]

/-- King move deltas. -/
def kingDeltas : List (Int × Int) :=
  [(1, 0), (1, 1), (0, 1), (-1, 1), (-1, 0), (-1, -1), (0, -1), (1, -1)]

/-- Rook ray directions. -/
def rookDirs : List (Int × Int) := [(1, 0), (-1, 0), (0, 1), (0, -1)]

/-- Bishop ray directions. -/
def bishopDirs : List (Int × Int) := [(1, 1), (1, -1), (-1, 1), (-1, -1)]

/-- Whether color `c` attacks square `t` on board `b`. -/
def attacked (b : Sq → Option Piece) (c : Color) (t : Sq) : Bool :=
  let pawnDir : Int := if c = .w then 1 else -1
  ([(-1 : Int), 1].any fun df =>
    match shift t (df, -pawnDir) with
    | some s => b s == some ⟨.p, c⟩
    | none => false) ||
  (knightDeltas.any fun d =>
    match shift t d with
    | some s => b s == some ⟨.n, c⟩
    | none => false) ||
  (kingDeltas.any fun d =>
    match shift t d with
    | some s => b s == some ⟨.k, c⟩
    | none => false) ||
  (rookDirs.any fun d =>
    match firstAlong b 8 t d with
    | some (_, pc) => pc.color == c && (pc.type == .r || pc.type == .q)
    | none => false) ||
  (bishopDirs.any fun d =>
    match firstAlong b 8 t d with
    | some (_, pc) => pc.color == c && (pc.type == .b || pc.type == .q)
    | none => false)

/-- A generated move: piece type, source, target, optional promotion and
the special-move flags (en passant, double push, castling wing). -/
structure Move where
  piece : PieceType
  fromSq : Sq
  toSq : Sq
  promo : Option PieceType := none
  isEp : Bool := false
  isDouble : Bool := false
  castleSide : Option Bool := none
deriving DecidableEq, Repr

/-- Promotion piece choices in chess.js generation order. -/
def promoPieces : List PieceType := [.q, .r, .b, .n]

/-- Pawn pseudo-moves from a square. -/
def pawnMoves (pos : Position) (sq : Sq) (c : Color) : List Move :=
  let dir : Int := if c = .w then 1 else -1
  let startR : Nat := if c = .w then 1 else 6
  let lastR : Nat := if c = .w then 7 else 0
  let mkP : Sq → List Move := fun t =>
    if t.2.val = lastR then
      promoPieces.map (fun pp => { piece := .p, fromSq := sq, toSq := t, promo := some pp })
    else [{ piece := .p, fromSq := sq, toSq := t }]
  let pushes : List Move :=
    match shift sq (0, dir) with
    | some t1 =>
      if pos.board t1 = none then
        mkP t1 ++
          (if sq.2.val = startR then
            match shift sq (0, 2 * dir) with
            | some t2 =>
              if pos.board t2 = none then
                [{ piece := .p, fromSq := sq, toSq := t2, isDouble := true }]
              else []
            | none => []
          else [])
      else []
    | none => []
  let caps : List Move :=
    [(-1 : Int), 1].flatMap fun df =>
      match shift sq (df, dir) with
      | some t =>
        match pos.board t with
        | some pc => if pc.color ≠ c then mkP t else []
        | none =>
          if pos.ep = some t then
            [{ piece := .p, fromSq := sq, toSq := t, isEp := true }]
          else []
      | none => []
  pushes ++ caps

/-- Pseudo-moves of a stepping piece (knight, king). -/
def leaperMoves (pos : Position) (sq : Sq) (c : Color) (pt : PieceType)
    (deltas : List (Int × Int)) : List Move :=
  deltas.filterMap fun d =>
    match shift sq d with
    | some t =>
      match pos.board t with
      | none => some { piece := pt, fromSq := sq, toSq := t }
      | some pc => if pc.color ≠ c then some { piece := pt, fromSq := sq, toSq := t } else none
    | none => none

/-- Ray walk collecting slider pseudo-moves. -/
def slideWalk (pos : Position) (c : Color) (pt : PieceType) (orig : Sq) :
    Nat → Sq → Int × Int → List Move
  | 0, _, _ => []
  | fuel + 1, cur, d =>
    match shift cur d with
    | none => []
    | some nxt =>
      match pos.board nxt with
      | none => { piece := pt, fromSq := orig, toSq := nxt } :: slideWalk pos c pt orig fuel nxt d
      | some pc =>
        if pc.color ≠ c then [{ piece := pt, fromSq := orig, toSq := nxt }] else []

/-- Pseudo-moves of a sliding piece. -/
def sliderMoves (pos : Position) (sq : Sq) (c : Color) (pt : PieceType)
    (dirs : List (Int × Int)) : List Move :=
  dirs.flatMap fun d => slideWalk pos c pt sq 8 sq d

/-- Castling moves available to `c` (rights present, squares empty, king
not passing through attack). -/
def castleMoves (pos : Position) (c : Color) : List Move :=
  let homeR : Fin 8 := if c = .w then 0 else 7
  let eSq : Sq := (4, homeR)
  let opp := c.other
  let kingHome := pos.board eSq == some ⟨.k, c⟩
  let ksRight := if c = .w then pos.castling.wk else pos.castling.bk
  let qsRight := if c = .w then pos.castling.wq else pos.castling.bq
  let ks :=
    ksRight && kingHome && pos.board (7, homeR) == some ⟨.r, c⟩ &&
      pos.board (5, homeR) == none && pos.board (6, homeR) == none &&
      !attacked pos.board opp eSq && !attacked pos.board opp (5, homeR) &&
      !attacked pos.board opp (6, homeR)
  let qs :=
    qsRight && kingHome && pos.board (0, homeR) == some ⟨.r, c⟩ &&
      pos.board (1, homeR) == none && pos.board (2, homeR) == none &&
      pos.board (3, homeR) == none &&
      !attacked pos.board opp eSq && !attacked pos.board opp (3, homeR) &&
      !attacked pos.board opp (2, homeR)
  (if ks then [{ piece := .k, fromSq := eSq, toSq := (6, homeR), castleSide := some true }] else []) ++
  (if qs then [{ piece := .k, fromSq := eSq, toSq := (2, homeR), castleSide := some false }] else [])

/-- All pseudo-legal moves of the side to move, scanning squares in the
chess.js board order. -/
def pseudoMoves (pos : Position) : List Move :=
  (scanSquares.flatMap fun sq =>
    match pos.board sq with
    | some pc =>
      if pc.color = pos.turn then
        match pc.type with
        | .p => pawnMoves pos sq pos.turn
        | .n => leaperMoves pos sq pos.turn .n knightDeltas
        | .b => sliderMoves pos sq pos.turn .b bishopDirs
        | .r => sliderMoves pos sq pos.turn .r rookDirs
        | .q => sliderMoves pos sq pos.turn .q (rookDirs ++ bishopDirs)
        | .k => leaperMoves pos sq pos.turn .k kingDeltas
      else []
    | none => []) ++ castleMoves pos pos.turn

/-- Point update of a board function. -/
def boardSet (b : Sq → Option Piece) (sq : Sq) (v : Option Piece) : Sq → Option Piece :=
  fun x => if x = sq then v else b x

/-- Apply a generated move to a position (make-move of the oracle). -/
def applyMove (pos : Position) (m : Move) : Position :=
  let c := pos.turn
  let isCap := (pos.board m.toSq).isSome || m.isEp
  let placed : Piece := ⟨m.promo.getD m.piece, c⟩
  let b1 := boardSet pos.board m.fromSq none
  let b2 := boardSet b1 m.toSq (some placed)
  let b3 := if m.isEp then boardSet b2 (m.toSq.1, m.fromSq.2) none else b2
  let b4 :=
    match m.castleSide with
    | some true => boardSet (boardSet b3 (7, m.fromSq.2) none) (5, m.fromSq.2) (some ⟨.r, c⟩)
    | some false => boardSet (boardSet b3 (0, m.fromSq.2) none) (3, m.fromSq.2) (some ⟨.r, c⟩)
    | none => b3
  let cr0 := pos.castling
  let cr1 :=
    if m.piece = .k then
      if c = .w then { cr0 with wk := false, wq := false }
      else { cr0 with bk := false, bq := false }
    else cr0
  let clearCorner : CastlingRights → Sq → CastlingRights := fun cr sq =>
    if sq = ((7 : Fin 8), (0 : Fin 8)) then { cr with wk := false }
    else if sq = ((0 : Fin 8), (0 : Fin 8)) then { cr with wq := false }
    else if sq = ((7 : Fin 8), (7 : Fin 8)) then { cr with bk := false }
    else if sq = ((0 : Fin 8), (7 : Fin 8)) then { cr with bq := false }
    else cr
  let cr2 := clearCorner (clearCorner cr1 m.fromSq) m.toSq
  let ep' : Option Sq :=
    if m.isDouble then
      some (m.fromSq.1, ⟨(m.fromSq.2.val + m.toSq.2.val) / 2, by omega⟩)
    else none
  { board := b4, turn := c.other, castling := cr2, ep := ep',
    halfmove := if m.piece = .p || isCap then 0 else pos.halfmove + 1,
    fullmove := if c = .b then pos.fullmove + 1 else pos.fullmove }

/-- The square of the king of color `c`, when present. -/
def kingSquare (b : Sq → Option Piece) (c : Color) : Option Sq :=
  scanSquares.find? (fun sq => b sq == some ⟨.k, c⟩)

/-- Whether the mover's king would be attacked after playing `m`. -/
def inCheckAfter (pos : Position) (m : Move) : Bool :=
  let pos' := applyMove pos m
  match kingSquare pos'.board pos.turn with
  | some ks => attacked pos'.board pos.turn.other ks
  | none => false

/-- Modelled from the spec: the oracle's legal-move enumeration
(`chess.moves({ verbose: true })`), §6(d). -/
def legalMoves (pos : Position) : List Move :=
  (pseudoMoves pos).filter (fun m => !inCheckAfter pos m)

namespace Chess

/-- Modelled from the spec: `chess.get(square)`, §6(e) — the piece
occupying a square, `none` for an empty or invalid square. -/
def get (pos : Position) (sqStr : String) : Option Piece :=
  (parseSq sqStr).bind pos.board

/-- Lowercased piece letter to piece type. -/
def parsePieceLetter : Char → Option PieceType
  | 'p' => some .p
  | 'n' => some .n
  | 'b' => some .b
  | 'r' => some .r
  | 'q' => some .q
  | 'k' => some .k
  | _ => none

/-- One-letter piece string to piece type, case-insensitive as chess.js
validates `put` input. -/
def parsePieceStr (s : String) : Option PieceType :=
  match s.toList with
  | [c] => parsePieceLetter c.toLower
  | _ => none

/-- Whether a legal move's promotion is compatible with a requested
promotion string (non-promotion moves ignore the request; promotion moves
default to queen when none is given). -/
def promoMatches (m : Move) (promo : Option String) : Bool :=
  match m.promo with
  | none => true
  | some pp => pp == ((promo.bind parsePieceStr).getD .q)

/-- Modelled from the spec: `chess.move({ from, to, promotion })`,
§6(c) — apply a move given by source and target square names; `none`
models the thrown "invalid move" error, leaving no partial state. -/
def moveFromTo (pos : Position) (src dst : String) (promo : Option String) :
    Option (Move × Position) :=
  match parseSq src, parseSq dst with
  | some f, some t =>
    match (legalMoves pos).find?
        (fun m => m.fromSq == f && m.toSq == t && promoMatches m promo) with
    | some m => some (m, applyMove pos m)
    | none => none
  | _, _ => none

/-- Whether a source square is consistent with a SAN disambiguation
fragment (each fragment character names the move's file or rank). -/
def disConsistent (dis : String) (sq : Sq) : Bool :=
  dis.toList.all (fun ch => ch == fileChar sq || ch == rankChar sq)

/-- Modelled from the spec: `chess.move(string)` — parse a SAN or
coordinate move string against the position and apply the unique legal
move it denotes, `none` for the thrown error otherwise. -/
def moveSan (pos : Position) (san : String) : Option (Move × Position) :=
  let clean := cleanStr san
  if clean = "O-O" || clean = "0-0" then
    match (legalMoves pos).find? (fun m => m.castleSide == some true) with
    | some m => some (m, applyMove pos m)
    | none => none
  else if clean = "O-O-O" || clean = "0-0-0" then
    match (legalMoves pos).find? (fun m => m.castleSide == some false) with
    | some m => some (m, applyMove pos m)
    | none => none
  else
    match uciMatch clean with
    | some (src, dst, promo) => moveFromTo pos src dst (promo.map (fun c => String.mk [c]))
    | none =>
      match sanMatch clean with
      | some (pieceChar, dis, _, dst, promo) =>
        let pt := pieceTypeOfSanChar (pieceChar.getD 'P')
        let wantPromo : Option PieceType := promo.map pieceTypeOfSanChar
        match (legalMoves pos).filter (fun m =>
            m.piece == pt && sqName m.toSq == dst && disConsistent dis m.fromSq &&
            m.castleSide == none && m.promo == wantPromo) with
        | [m] => some (m, applyMove pos m)
        | _ => none
      | none => none

/-- Modelled from the spec: `chess.put(piece, square)` — place a piece,
refusing an invalid square or a second king of the same color; the
position is unchanged on failure. -/
def putPiece (pos : Position) (p : Piece) (sqStr : String) : Position × Bool :=
  match parseSq sqStr with
  | none => (pos, false)
  | some sq =>
    if p.type = .k &&
        scanSquares.any (fun s => s ≠ sq && pos.board s == some ⟨.k, p.color⟩) then
      (pos, false)
    else ({ pos with board := boardSet pos.board sq (some p) }, true)

/-- `chess.put` with the raw piece-type string the repository passes
(`pieceType as PieceSymbol`): an unrecognized type string fails. -/
def putStr (pos : Position) (typeStr : String) (c : Color) (sqStr : String) :
    Position × Bool :=
  match parsePieceStr typeStr with
  | none => (pos, false)
  | some pt => putPiece pos ⟨pt, c⟩ sqStr

/-- Modelled from the spec: `chess.remove(square)` — empty a square. -/
def removeSq (pos : Position) (sqStr : String) : Position :=
  match parseSq sqStr with
  | none => pos
  | some sq => { pos with board := boardSet pos.board sq none }

end Chess

/-- The back rank piece order. -/
def backRank : List PieceType := [.r, .n, .b, .q, .k, .b, .n, .r]

/-- The standard starting board. -/
def startBoard : Sq → Option Piece := fun sq =>
  if sq.2.val = 0 then some ⟨backRank.getD sq.1.val .p, .w⟩
  else if sq.2.val = 1 then some ⟨.p, .w⟩
  else if sq.2.val = 6 then some ⟨.p, .b⟩
  else if sq.2.val = 7 then some ⟨backRank.getD sq.1.val .p, .b⟩
  else none

/-- The standard starting position
(`rnbqkbnr/pppppppp/8/8/8/8/PPPPPPPP/RNBQKBNR w KQkq - 0 1`). -/
def startPos : Position :=
  { board := startBoard, turn := .w, castling := ⟨true, true, true, true⟩ }

/-! ## Legality & Hallucination Classifier (`analyzeIllegalMove`) -/

/-- The `type` field of `IllegalMoveAnalysis`:
`'legal' | 'hallucination' | 'illegal' | 'unknown'`.  In the spec's
taxonomy: `legal` ↔ `Legal`, `illegal` ↔ `IllegalDestination`,
`hallucination` ↔ `Hallucination`, `unknown` ↔ `Unrecognized`. -/
inductive AType where
  | legal
  | hallucination
  | illegal
  | unknown
deriving DecidableEq, Repr

/-- The `description` template strings of `analyzeIllegalMove`, one
constructor per template with its interpolated arguments. -/
inductive Rationale where
  /-- "The agent played an unrecognizable move string: …". -/
  | unrecognizable (san : String)
  /-- "The agent played …." (step 3, legal with identified source). -/
  | played (san : String)
  /-- "… but that piece belongs to the opponent! (Ownership
  Hallucination)". -/
  | ownership (pt : PieceType) (sq : String)
  /-- "The agent tried to move its … on … to …, but it's an illegal
  move." (step 4, same-color hint match). -/
  | illegalFrom (pt : PieceType) (sq : String) (target : String)
  /-- "… no such piece there (Location Hallucination)". -/
  | locationHallucination (pt : PieceType) (dis : String)
  /-- "… While the notation is slightly unusual, the move is legal."
  (step 5 fallback). -/
  | playedUnusual (san : String)
  /-- "The agent tried to move its … on … to …, but it's an illegal
  move." (step 5, first player piece as presumed source). -/
  | illegalFallback (pt : PieceType) (sq : String) (target : String)
  /-- "The agent tried to move a non-existent … to … (Hallucination)". -/
  | nonexistent (pt : PieceType) (target : String)
deriving DecidableEq, Repr

/-- `IllegalMoveAnalysis` of chess-logic.ts. -/
structure IllegalMoveAnalysis where
  type : AType
  pieceType : Option PieceType := none
  targetSquare : Option String := none
  sourceSquare : Option String := none
  description : Rationale
deriving DecidableEq, Repr

/-- One entry of the classifier's piece scan: `{ type, color, square }`. -/
structure PieceEntry where
  type : PieceType
  color : Color
  square : String
deriving DecidableEq, Repr

/-- Step 1 of `analyzeIllegalMove`: collect all pieces of a type on the
board, in `chess.board()` scan order. -/
def piecesOfType (pos : Position) (t : PieceType) : List PieceEntry :=
  scanSquares.filterMap (fun sq =>
    match pos.board sq with
    | some p => if p.type = t then some ⟨p.type, p.color, sqName sq⟩ else none
    | none => none)

/-- `analyzeIllegalMove` of chess-logic.ts: classifies a move attempt
against a position as `legal`, `illegal` (real piece, unreachable
target), `hallucination` (no such piece of the mover), or `unknown`
(unparseable). -/
def analyzeIllegalMove (pos : Position) (moveStr : String) (agentColor : Color) :
    IllegalMoveAnalysis :=
  match parseMove moveStr with
  | none =>
    { type := .unknown, targetSquare := none,
      description := .unrecognizable moveStr }
  | some parsed0 =>
    let turnColor := agentColor
    let allPiecesOfThisType := piecesOfType pos parsed0.pieceType
    let cleanSan := cleanStr moveStr
    let parsed :=
      match uciMatch cleanSan with
      | some (src, _, _) =>
        match Chess.get pos src with
        | some pieceAtSource => { parsed0 with pieceType := pieceAtSource.type }
        | none => parsed0
      | none => parsed0
    let playerPieces := allPiecesOfThisType.filter (fun p => p.color == turnColor)
    let sourceSquare : Option String :=
      match parsed.disambiguation with
      | some dis =>
        match playerPieces.find? (fun p => strContains p.square dis) with
        | some mtch => some mtch.square
        | none => none
      | none =>
        match playerPieces with
        | [only] => some only.square
        | _ => none
    let step3 : Option IllegalMoveAnalysis :=
      match sourceSquare with
      | some src =>
        match Chess.moveFromTo pos src parsed.targetSquare parsed.promotion with
        | some _ =>
          some { type := .legal, pieceType := some parsed.pieceType,
                 targetSquare := some parsed.targetSquare,
                 sourceSquare := some src, description := .played moveStr }
        | none => none
      | none => none
    match step3 with
    | some res => res
    | none =>
      match parsed.disambiguation with
      | some dis =>
        match allPiecesOfThisType.find? (fun p => strContains p.square dis) with
        | some anyMatchingPiece =>
          { type := .illegal, pieceType := some parsed.pieceType,
            targetSquare := some parsed.targetSquare,
            sourceSquare := some anyMatchingPiece.square,
            description :=
              if anyMatchingPiece.color ≠ turnColor then
                .ownership parsed.pieceType anyMatchingPiece.square
              else
                .illegalFrom parsed.pieceType anyMatchingPiece.square
                  parsed.targetSquare }
        | none =>
          { type := .hallucination, pieceType := some parsed.pieceType,
            targetSquare := some parsed.targetSquare,
            description := .locationHallucination parsed.pieceType dis }
      | none =>
        match playerPieces with
        | firstPlayer :: _ =>
          match (legalMoves pos).find? (fun m =>
              m.piece == parsed.pieceType && sqName m.toSq == parsed.targetSquare) with
          | some matchingLegalMove =>
            { type := .legal, pieceType := some parsed.pieceType,
              targetSquare := some parsed.targetSquare,
              sourceSquare := some (sqName matchingLegalMove.fromSq),
              description := .playedUnusual moveStr }
          | none =>
            { type := .illegal, pieceType := some parsed.pieceType,
              targetSquare := some parsed.targetSquare,
              sourceSquare := some firstPlayer.square,
              description :=
                .illegalFallback parsed.pieceType firstPlayer.square
                  parsed.targetSquare }
        | [] =>
          { type := .hallucination, pieceType := some parsed.pieceType,
            targetSquare := some parsed.targetSquare,
            description := .nonexistent parsed.pieceType parsed.targetSquare }

/-- `generateIllegalStateFen` of chess-logic.ts: place the hallucinated
piece on the target square of the base position, returning the base
position unchanged when `chess.put` fails. -/
def generateIllegalStateFen (baseFen : Position) (pieceType : String)
    (color : Color) (targetSquare : String) : Position :=
  let res := Chess.putStr baseFen pieceType color targetSquare
  if res.2 then res.1 else baseFen

/-! ## Replay Controller (`useChessReplay`) -/

/-- `MoveRecordResponse` of api/types.ts, restricted to the fields the
replay controller reads.  The `fen` string is modelled by its parsed
position; `none` stands for a missing or empty (falsy) `fen`. -/
structure MoveRecord where
  fen : Option Position := none
  expected_move : String := ""
  actual_move : String := ""
  is_illegal : Bool := false

/-- Props of the `useChessReplay` hook. -/
structure ReplayProps where
  initialFen : Option Position := none
  gameMoves : List MoveRecord
  agentColor : Color

/-- An arrow drawn on the board. -/
structure Arrow where
  startSquare : String
  endSquare : String
  color : String
deriving DecidableEq, Repr

/-- The `customSquareStyles` object: square name to CSS background, in JS
key insertion order. -/
abbrev Styles := List (String × String)

/-- Set a key in a styles object: overwrite in place when present,
append otherwise (JS object assignment). -/
def stylesSet (st : Styles) (k v : String) : Styles :=
  if st.any (fun p => p.1 == k) then
    st.map (fun p => if p.1 == k then (k, v) else p)
  else st ++ [(k, v)]

/-- The hook state after a `goToMove` call and its visual-update effect:
every `useState` cell the hook owns. -/
structure ReplayState where
  currentMoveIndex : Int
  boardPosition : Position
  arrows : List Arrow
  customSquareStyles : Styles
  hallucinatedSquare : Option String
  illegalSquare : Option String
  analysisResult : Option IllegalMoveAnalysis

/-- `getBaseChess`: the starting position of the replay (`initialFen` if
given, else the standard start). -/
def baseChess (props : ReplayProps) : Position :=
  props.initialFen.getD startPos

/-- One iteration of the replay loop of `goToMove`/`updateVisuals`: apply
a recorded attempt when it is not flagged illegal, its move string is
truthy, and the oracle accepts it; ignore it otherwise. -/
def replayStep (pos : Position) (m : MoveRecord) : Position :=
  if !m.is_illegal && m.actual_move ≠ "" then
    match Chess.moveSan pos m.actual_move with
    | some (_, p') => p'
    | none => pos
  else pos

/-- The `for (let i = 0; i < index; i++)` replay loop: the position
reached by replaying the non-rejected attempts before `index` from the
start (indices past the end contribute nothing, as in JS). -/
def replayUpTo (props : ReplayProps) (index : Int) : Position :=
  (props.gameMoves.take index.toNat).foldl replayStep (baseChess props)

/-- `gameMoves[index]` for an `Int` index: negative or past-the-end
lookups give `undefined`. -/
def recordAt (ms : List MoveRecord) (index : Int) : Option MoveRecord :=
  if index < 0 then none else ms[index.toNat]?

/-- The red highlight background used for illegal targets. -/
def redBg : String := "rgba(255, 0, 0, 0.4)"

/-- `updateVisuals` of useChessReplay.ts: the arrows and square styles
recomputed by the effect for the current index, given the
`hallucinatedSquare` state set by `goToMove`. -/
def updateVisuals (props : ReplayProps) (index : Int)
    (hallucinatedSquare : Option String) : List Arrow × Styles :=
  match recordAt props.gameMoves index with
  | none => ([], [])
  | some moveRecord =>
    let currentFen := replayUpTo props index
    let greenArrows : List Arrow :=
      if moveRecord.expected_move ≠ "" then
        match Chess.moveSan currentFen moveRecord.expected_move with
        | some (mv, _) =>
          [⟨sqName mv.fromSq, sqName mv.toSq, "rgba(34, 197, 94, 0.9)"⟩]
        | none => []
      else []
    let redPart : List Arrow × Styles :=
      if moveRecord.actual_move ≠ "" &&
          moveRecord.actual_move ≠ moveRecord.expected_move then
        match Chess.moveSan currentFen moveRecord.actual_move with
        | some (mv, _) =>
          ([⟨sqName mv.fromSq, sqName mv.toSq, "rgba(239, 68, 68, 0.9)"⟩], [])
        | none =>
          let analysis := analyzeIllegalMove currentFen moveRecord.actual_move
            props.agentColor
          if strTruthy analysis.targetSquare then
            let t := analysis.targetSquare.getD ""
            ((if strTruthy analysis.sourceSquare then
                [⟨analysis.sourceSquare.getD "", t, "rgba(239, 68, 68, 0.9)"⟩]
              else []),
             [(t, redBg)])
          else ([], [])
      else ([], [])
    let newCustomSquares :=
      match hallucinatedSquare with
      | some h => if h ≠ "" then stylesSet redPart.2 h redBg else redPart.2
      | none => redPart.2
    (greenArrows ++ redPart.1, newCustomSquares)

/-- `goToMove` of useChessReplay.ts together with the visual-update
effect that follows it: the complete hook state after navigating to
`index`.  Every state cell is overwritten on every path, so the result
does not depend on the previous state `s`. -/
def goToMove (props : ReplayProps) (index : Int) (s : ReplayState) : ReplayState :=
  if index = -1 then
    { currentMoveIndex := -1, boardPosition := baseChess props,
      arrows := [], customSquareStyles := [],
      hallucinatedSquare := none, illegalSquare := none, analysisResult := none }
  else
    let moveRecord := recordAt props.gameMoves index
    let baseFen := replayUpTo props index
    match moveRecord with
    | some m =>
      if m.is_illegal then
        let analysis := analyzeIllegalMove baseFen m.actual_move props.agentColor
        let hall : Option String :=
          if analysis.type = .hallucination then analysis.targetSquare else none
        let turnColor := props.agentColor
        let hasTarget := strTruthy analysis.targetSquare
        let t := analysis.targetSquare.getD ""
        let displayFen :=
          if hasTarget then
            let s1 :=
              if strTruthy analysis.sourceSquare then
                Chess.removeSq baseFen (analysis.sourceSquare.getD "")
              else baseFen
            match analysis.pieceType with
            | some pt => (Chess.putPiece s1 ⟨pt, turnColor⟩ t).1
            | none => s1
          else baseFen
        let vis := updateVisuals props index hall
        { currentMoveIndex := index, boardPosition := displayFen,
          arrows := vis.1, customSquareStyles := vis.2,
          hallucinatedSquare := hall,
          illegalSquare := if hasTarget then analysis.targetSquare else none,
          analysisResult := some analysis }
      else
        let board :=
          match m.fen with
          | some f => f
          | none =>
            match Chess.moveSan baseFen m.actual_move with
            | some (_, p') => p'
            | none => baseFen
        let vis := updateVisuals props index none
        { currentMoveIndex := index, boardPosition := board,
          arrows := vis.1, customSquareStyles := vis.2,
          hallucinatedSquare := none, illegalSquare := none,
          analysisResult := none }
    | none =>
      let vis := updateVisuals props index none
      { currentMoveIndex := index, boardPosition := baseFen,
        arrows := vis.1, customSquareStyles := vis.2,
        hallucinatedSquare := none, illegalSquare := none,
        analysisResult := none }

/-! ## Move-history grouping (`MoveHistory`) -/

/-- `HistoryRow` of MoveHistory.tsx: one table row with a move number
and the White/Black cells, each holding a move record and its index. -/
structure HistoryRow where
  number : Nat
  white : Option (MoveRecord × Nat) := none
  black : Option (MoveRecord × Nat) := none

/-- The accumulator of the grouping loop. -/
structure GroupSt where
  rows : List HistoryRow
  currentNumber : Nat
  currentRow : HistoryRow
  expectedColor : Color

/-- One iteration of the `moves.forEach` grouping loop of
MoveHistory.tsx. -/
def groupStep (st : GroupSt) (mi : MoveRecord × Nat) : GroupSt :=
  if st.expectedColor = .w then
    let pushed :=
      if st.currentRow.white.isSome then
        (st.rows ++ [st.currentRow],
         ({ number := st.currentNumber } : HistoryRow))
      else (st.rows, st.currentRow)
    let row := { pushed.2 with white := some mi }
    if !mi.1.is_illegal then
      { rows := pushed.1, currentNumber := st.currentNumber,
        currentRow := row, expectedColor := .b }
    else
      { rows := pushed.1 ++ [row], currentNumber := st.currentNumber,
        currentRow := { number := st.currentNumber }, expectedColor := .w }
  else
    let pushed :=
      if st.currentRow.black.isSome then
        (st.rows ++ [st.currentRow],
         ({ number := st.currentNumber } : HistoryRow))
      else (st.rows, st.currentRow)
    let row := { pushed.2 with black := some mi }
    if !mi.1.is_illegal then
      { rows := pushed.1 ++ [row], currentNumber := st.currentNumber + 1,
        currentRow := { number := st.currentNumber + 1 }, expectedColor := .w }
    else
      { rows := pushed.1 ++ [row], currentNumber := st.currentNumber,
        currentRow := { number := st.currentNumber }, expectedColor := .b }

/-- The row grouping computed by the `MoveHistory` component: fold the
attempts (with their indices) through the grouping loop, then push the
final partial row when nonempty. -/
def buildRows (moves : List MoveRecord) (startColor : Color) : List HistoryRow :=
  let init : GroupSt :=
    { rows := [], currentNumber := 1, currentRow := { number := 1 },
      expectedColor := startColor }
  let fin := (moves.enum.map (fun p => (p.2, p.1))).foldl groupStep init
  if fin.currentRow.white.isSome || fin.currentRow.black.isSome then
    fin.rows ++ [fin.currentRow]
  else fin.rows

/-- Index-level view of a history row, for statements (records carry a
position and are not decidably comparable). -/
def rowView (r : HistoryRow) : Nat × Option Nat × Option Nat :=
  (r.number, r.white.map Prod.snd, r.black.map Prod.snd)

/-! ## Concrete fixtures used by the claims -/

/-- Scenario A position of the spec:
`rnbqkbnr/pppppppp/8/8/6Q1/8/PPPPPPPP/RNB1KBNR w KQkq - 0 1` — the
starting position with the white queen on g4 instead of d1. -/
def posQueenG4 : Position :=
  { board := boardSet (boardSet startBoard ((3 : Fin 8), (0 : Fin 8)) none)
      ((6 : Fin 8), (3 : Fin 8)) (some ⟨.q, .w⟩),
    turn := .w, castling := ⟨true, true, true, true⟩ }

/-- A position with a black queen on d8, a black king on h8, a white king
on e1 and no white queen (Scenario C shape), white to move. -/
def posOppQueen : Position :=
  { board := fun sq =>
      if sq = ((3 : Fin 8), (7 : Fin 8)) then some ⟨.q, .b⟩
      else if sq = ((7 : Fin 8), (7 : Fin 8)) then some ⟨.k, .b⟩
      else if sq = ((4 : Fin 8), (0 : Fin 8)) then some ⟨.k, .w⟩
      else none,
    turn := .w, castling := ⟨false, false, false, false⟩ }

/-- White rooks on a1 and h1 with the white king on e1 between them,
black king on e8, white to move: the rank-1 hint `R1…` matches two white
rooks. -/
def posTwoRooks : Position :=
  { board := fun sq =>
      if sq = ((0 : Fin 8), (0 : Fin 8)) then some ⟨.r, .w⟩
      else if sq = ((7 : Fin 8), (0 : Fin 8)) then some ⟨.r, .w⟩
      else if sq = ((4 : Fin 8), (0 : Fin 8)) then some ⟨.k, .w⟩
      else if sq = ((4 : Fin 8), (7 : Fin 8)) then some ⟨.k, .b⟩
      else none,
    turn := .w, castling := ⟨false, false, false, false⟩ }

/-- A legal `e4` attempt record (no cached FEN). -/
def recE4 : MoveRecord := { actual_move := "e4" }

/-- An illegal `Qh5` attempt record. -/
def recQh5 : MoveRecord := { actual_move := "Qh5", is_illegal := true }

/-- A legal `e5` attempt record. -/
def recE5 : MoveRecord := { actual_move := "e5" }

/-- A legal `e4` attempt whose cached `fen` is (wrongly) the starting
position. -/
def recE4BadFen : MoveRecord := { actual_move := "e4", fen := some startPos }

/-- An arbitrary concrete hook state to seed `goToMove` calls. -/
def stInit : ReplayState :=
  { currentMoveIndex := 0, boardPosition := startPos, arrows := [],
    customSquareStyles := [], hallucinatedSquare := none,
    illegalSquare := none, analysisResult := none }

/-! ## Helper lemmas -/

/-- Updating a board at a square stores the value there. -/
theorem boardSet_same (b : Sq → Option Piece) (sq : Sq) (v : Option Piece) :
    boardSet b sq v sq = v := by
  simp [boardSet]

/-- Updating a board at a square leaves other squares unchanged. -/
theorem boardSet_other (b : Sq → Option Piece) (sq : Sq) (v : Option Piece)
    (x : Sq) (h : x ≠ sq) : boardSet b sq v x = b x := by
  simp [boardSet, h]

/-- Every square occurs in the chess.js scan order. -/
theorem scanSquares_complete : ∀ sq : Sq, sq ∈ scanSquares := by decide

/-- The oracle rejects the empty move string. -/
theorem moveSan_empty (pos : Position) : Chess.moveSan pos "" = none := rfl

/-! ## Claims -/

set_option maxRecDepth 16000

/-- C2, counterexample: on the Scenario A position (white queen on g4),
classifying `"Qc6"` for white does NOT return `Legal` — a queen on g4
cannot reach c6 and no other white queen exists, so `analyzeIllegalMove`
returns the `illegal` (IllegalDestination) classification. -/
theorem claim_C2_counterexample :
    (analyzeIllegalMove posQueenG4 "Qc6" .w).type = AType.illegal ∧
    AType.illegal ≠ AType.legal := by
  refine ⟨by decide, by decide⟩

/-- C2, amended: on the position
`rnbqkbnr/pppppppp/8/8/6Q1/8/PPPPPPPP/RNB1KBNR w KQkq - 0 1`, classifying
the attempt `"Qc6"` for white returns `IllegalDestination` (`illegal`)
with source square g4 and target square c6 — the single white queen on g4
is identified as the source, but it cannot legally reach c6. -/
theorem claim_C2 :
    analyzeIllegalMove posQueenG4 "Qc6" .w =
      { type := .illegal, pieceType := some .q, targetSquare := some "c6",
        sourceSquare := some "g4",
        description := .illegalFallback .q "g4" "c6" } := by
  decide

/-- C4, counterexample: for the three-attempt sequence
[legal `e4`, illegal `Qh5`, legal `e5`] starting with White, the grouping
does NOT place attempts 0 and 2 as the White/Black halves of move 1 and
does NOT give attempt 1 its own White-attributed retry slot: attempt 1 is
placed as the Black cell of row 1 (the legal `e4` advanced the expected
color to Black), and attempt 2 is the Black cell of a second row numbered
1 with an empty White cell. -/
theorem claim_C4_counterexample :
    (buildRows [recE4, recQh5, recE5] .w).map rowView =
      [(1, some 0, some 1), (1, none, some 2)] := by
  decide

/-- C4, amended: for [legal `e4`, illegal `Qh5`, legal `e5`] starting
with White, the grouping yields exactly two rows, both numbered 1:
attempt 0 as White and attempt 1 as Black of the first row (a legal
attempt advances the expected color, an illegal one does not, so the
illegal attempt is attributed to Black and closes its row), and attempt 2
as Black of the second row with an empty White cell. -/
theorem claim_C4 :
    ((buildRows [recE4, recQh5, recE5] .w).map rowView).length = 2 ∧
    ((buildRows [recE4, recQh5, recE5] .w).map rowView).get? 0 =
      some (1, some 0, some 1) ∧
    ((buildRows [recE4, recQh5, recE5] .w).map rowView).get? 1 =
      some (1, none, some 2) := by
  refine ⟨by decide, by decide, by decide⟩

/-- C9: navigation is idempotent and order-independent — `goToMove`
overwrites every hook state cell from the props and the requested index
alone, so calling it twice in a row with the same index yields an
identical state (board FEN, classification and highlight state), and the
result does not depend on any previously visited index. -/
theorem claim_C9 (props : ReplayProps) (i j : Int) (s : ReplayState) :
    goToMove props i (goToMove props i s) = goToMove props i s ∧
    goToMove props i (goToMove props j s) = goToMove props i s :=
  ⟨rfl, rfl⟩

/-- C1, counterexample: on a position whose only queen is the black one
on d8, white's attempt `"Qdc7"` carries the disambiguation hint `d`,
which resolves only to the opponent's queen on d8 — yet
`analyzeIllegalMove` returns the `illegal` (IllegalDestination)
classification, not `hallucination`. -/
theorem claim_C1_counterexample :
    parseMove "Qdc7" =
      some { san := "Qdc7", pieceType := .q, targetSquare := "c7",
             isCapture := false, isCheck := false, isMate := false,
             promotion := none, disambiguation := some "d" } ∧
    piecesOfType posOppQueen .q = [⟨.q, .b, "d8"⟩] ∧
    strContains "d8" "d" = true ∧
    (analyzeIllegalMove posOppQueen "Qdc7" .w).type = AType.illegal ∧
    AType.illegal ≠ AType.hallucination := by
  refine ⟨by decide, by decide, by decide, by decide, by decide⟩

/-- C1, amended: for every position and every non-coordinate move string
whose disambiguation hint matches no piece of the mover but matches an
opponent piece of the stated type, `analyzeIllegalMove` returns the
`illegal` (IllegalDestination) classification carrying the opponent
piece's square as source and an ownership-violation rationale — the
ownership violation is noted in the rationale, not by the
`hallucination` classification value. -/
theorem claim_C1 (pos : Position) (san : String) (color : Color)
    (p : ParsedMove) (d : String) (g : PieceEntry)
    (hp : parseMove san = some p)
    (hu : uciMatch (cleanStr san) = none)
    (hd : p.disambiguation = some d)
    (hplayer : ((piecesOfType pos p.pieceType).filter
      (fun e => e.color == color)).find? (fun e => strContains e.square d) = none)
    (hall : (piecesOfType pos p.pieceType).find?
      (fun e => strContains e.square d) = some g)
    (hopp : g.color ≠ color) :
    analyzeIllegalMove pos san color =
      { type := .illegal, pieceType := some p.pieceType,
        targetSquare := some p.targetSquare, sourceSquare := some g.square,
        description := .ownership p.pieceType g.square } := by
  unfold analyzeIllegalMove
  simp only [hp, hu, hd, hplayer, hall, hopp, ne_eq, not_false_eq_true,
    if_true, ite_true]

/-- C1, witness: the amended claim evaluated on the concrete
black-queen-on-d8 position with white's attempt `"Qdc7"`. -/
theorem claim_C1_witness :
    analyzeIllegalMove posOppQueen "Qdc7" .w =
      { type := .illegal, pieceType := some .q, targetSquare := some "c7",
        sourceSquare := some "d8", description := .ownership .q "d8" } :=
  claim_C1 posOppQueen "Qdc7" .w
    { san := "Qdc7", pieceType := .q, targetSquare := "c7",
      isCapture := false, isCheck := false, isMate := false,
      promotion := none, disambiguation := some "d" }
    "d" ⟨.q, .b, "d8"⟩ (by decide) (by decide) (by decide) (by decide)
    (by decide) (by decide)

/-- C7, counterexample: with white rooks on a1 and h1 (king on e1
between them), the attempt `"R1f1"` carries the hint `1`, which matches
both white rooks; the code adopts the first one in scan order (a1) as
the source even though it cannot reach f1, and returns `illegal` with
source a1 — it does not leave the source unresolved and does not fall
back to the legal-move list, although a legal rook move to f1 (from h1)
exists. -/
theorem claim_C7_counterexample :
    piecesOfType posTwoRooks .r = [⟨.r, .w, "a1"⟩, ⟨.r, .w, "h1"⟩] ∧
    strContains "a1" "1" = true ∧
    strContains "h1" "1" = true ∧
    (Chess.moveFromTo posTwoRooks "h1" "f1" none).isSome = true ∧
    analyzeIllegalMove posTwoRooks "R1f1" .w =
      { type := .illegal, pieceType := some .r, targetSquare := some "f1",
        sourceSquare := some "a1",
        description := .illegalFrom .r "a1" "f1" } := by
  refine ⟨by decide, by decide, by decide, by decide, by decide⟩

/-- C7, amended: when a non-coordinate move string's disambiguation hint
matches more than one of the mover's pieces of the stated type, the
first match in board scan order IS adopted as the source; if moving it
to the target is rejected by the oracle, the classification is `illegal`
(IllegalDestination) with the first hint-matching piece (here the
mover's own first match) as the presumed source — the legal-move-list
fallback is never consulted when a hint is present. -/
theorem claim_C7 (pos : Position) (san : String) (color : Color)
    (p : ParsedMove) (d : String) (q g : PieceEntry)
    (hp : parseMove san = some p)
    (hu : uciMatch (cleanStr san) = none)
    (hd : p.disambiguation = some d)
    (hmulti : 1 < (((piecesOfType pos p.pieceType).filter
      (fun e => e.color == color)).filter (fun e => strContains e.square d)).length)
    (hq : ((piecesOfType pos p.pieceType).filter
      (fun e => e.color == color)).find? (fun e => strContains e.square d) = some q)
    (hnoLegal : Chess.moveFromTo pos q.square p.targetSquare p.promotion = none)
    (hg : (piecesOfType pos p.pieceType).find?
      (fun e => strContains e.square d) = some g)
    (hgc : g.color = color) :
    analyzeIllegalMove pos san color =
      { type := .illegal, pieceType := some p.pieceType,
        targetSquare := some p.targetSquare, sourceSquare := some g.square,
        description := .illegalFrom p.pieceType g.square p.targetSquare } := by
  unfold analyzeIllegalMove
  simp only [hp, hu, hd, hq, hnoLegal, hg, hgc, ne_eq, not_true_eq_false,
    if_false, ite_false]

/-- C7, witness: the amended claim evaluated on the two-rook position
with the attempt `"R1f1"`. -/
theorem claim_C7_witness :
    analyzeIllegalMove posTwoRooks "R1f1" .w =
      { type := .illegal, pieceType := some .r, targetSquare := some "f1",
        sourceSquare := some "a1",
        description := .illegalFrom .r "a1" "f1" } :=
  claim_C7 posTwoRooks "R1f1" .w
    { san := "R1f1", pieceType := .r, targetSquare := "f1",
      isCapture := false, isCheck := false, isMate := false,
      promotion := none, disambiguation := some "1" }
    "1" ⟨.r, .w, "a1"⟩ ⟨.r, .w, "a1"⟩ (by decide) (by decide) (by decide)
    (by decide) (by decide) rfl (by decide) (by decide)

/-- C8: any string matched by none of the three notations — not
coordinate notation, not the SAN pattern, not a castling form — is
rejected by `parseMove` (it returns `none` rather than failing), and
`analyzeIllegalMove` classifies it as `unknown` (Unrecognized); both
functions are total, so no exception can escape. -/
theorem claim_C8 (s : String) (pos : Position) (c : Color)
    (h1 : uciMatch (cleanStr s) = none)
    (h2 : sanMatch (cleanStr s) = none)
    (h3 : cleanStr s ≠ "O-O") (h4 : cleanStr s ≠ "0-0")
    (h5 : cleanStr s ≠ "O-O-O") (h6 : cleanStr s ≠ "0-0-0") :
    parseMove s = none ∧
    analyzeIllegalMove pos s c =
      { type := .unknown, targetSquare := none,
        description := .unrecognizable s } := by
  have hparse : parseMove s = none := by
    unfold parseMove
    by_cases hs : s = ""
    · simp [hs]
    · simp [hs, h1, h2, h3, h4, h5, h6]
  refine ⟨hparse, ?_⟩
  unfold analyzeIllegalMove
  simp only [hparse]

/-- C8, witness: the unmatchable strings `"zz9"`, the empty string and
the stray-whitespace string `" e4"` all parse to `none` and classify as
`unknown`. -/
theorem claim_C8_witness :
    (parseMove "zz9" = none ∧
      analyzeIllegalMove startPos "zz9" .w =
        { type := .unknown, targetSquare := none,
          description := .unrecognizable "zz9" }) ∧
    (parseMove "" = none ∧
      analyzeIllegalMove startPos "" .w =
        { type := .unknown, targetSquare := none,
          description := .unrecognizable "" }) ∧
    (parseMove " e4" = none ∧
      analyzeIllegalMove startPos " e4" .b =
        { type := .unknown, targetSquare := none,
          description := .unrecognizable " e4" }) :=
  ⟨claim_C8 "zz9" startPos .w (by decide) (by decide) (by decide) (by decide)
      (by decide) (by decide),
   claim_C8 "" startPos .w (by decide) (by decide) (by decide) (by decide)
      (by decide) (by decide),
   claim_C8 " e4" startPos .b (by decide) (by decide) (by decide) (by decide)
      (by decide) (by decide)⟩

/-- C10: `generateIllegalStateFen` is total (never throws); when
`chess.put` fails — unrecognized piece-type string, invalid square name,
or a second king of the same color — it returns the base position
unchanged, and when the placement succeeds it returns the base position
with exactly the requested piece placed on the target square and every
other square untouched. -/
theorem claim_C10 (base : Position) (ts : String) (c : Color) (ss : String) :
    ((Chess.putStr base ts c ss).2 = false →
      generateIllegalStateFen base ts c ss = base) ∧
    (∀ pt sq, Chess.parsePieceStr ts = some pt → parseSq ss = some sq →
      (pt = .k → ∀ x, base.board x = some ⟨.k, c⟩ → x = sq) →
      (generateIllegalStateFen base ts c ss).board sq = some ⟨pt, c⟩ ∧
      ∀ x, x ≠ sq →
        (generateIllegalStateFen base ts c ss).board x = base.board x) := by
  constructor
  · intro h
    unfold generateIllegalStateFen
    simp [h]
  · intro pt sq hpt hsq hk
    have hguard : (scanSquares.any
        (fun x => x ≠ sq && (base.board x == some ⟨PieceType.k, c⟩))) = false ∨
        pt ≠ .k := by
      by_cases hpk : pt = .k
      · refine Or.inl ?_
        rw [List.any_eq_false]
        intro x _
        simp only [Bool.and_eq_true, decide_eq_true_eq, beq_iff_eq, not_and]
        intro hxne hbd
        exact absurd (hk hpk x hbd) hxne
      · exact Or.inr hpk
    unfold generateIllegalStateFen Chess.putStr Chess.putPiece
    rcases hguard with hany | hpk
    · simp only [hpt, hsq, hany, Bool.and_false, Bool.false_eq_true, if_false,
        ite_false]
      constructor
      · by_cases hpk : pt = .k <;>
          simp [hpk, boardSet_same]
      · intro x hx
        by_cases hpk : pt = .k <;>
          simp [hpk, boardSet_other _ _ _ _ hx]
    · simp only [hpt, hsq, hpk, decide_eq_true_eq, false_and, Bool.false_and,
        if_false, ite_false]
      refine ⟨by simp [hpk, boardSet_same], fun x hx => by
        simp [hpk, boardSet_other _ _ _ _ hx]⟩

/-- C10, witness: placing a white queen on d4 of the starting position
succeeds and changes only d4, while placing a second white king on d4
fails and leaves the position unchanged. -/
theorem claim_C10_witness :
    (generateIllegalStateFen startPos "q" .w "d4").board
      ((3 : Fin 8), (3 : Fin 8)) = some ⟨.q, .w⟩ ∧
    (generateIllegalStateFen startPos "q" .w "d4").board
      ((0 : Fin 8), (0 : Fin 8)) = startPos.board ((0 : Fin 8), (0 : Fin 8)) ∧
    generateIllegalStateFen startPos "k" .w "d4" = startPos ∧
    (Chess.putStr startPos "k" .w "d4").2 = false :=
  have h := (claim_C10 startPos "q" .w "d4").2 .q ((3 : Fin 8), (3 : Fin 8))
    (by decide) (by decide) (by intro hq; exact absurd hq (by decide))
  ⟨h.1, h.2 _ (by decide), (claim_C10 startPos "k" .w "d4").1 (by decide),
    by decide⟩

/-- Props with a single legal `e4` record whose cached `fen` is wrongly
the starting position. -/
def prBadFen : ReplayProps := { gameMoves := [recE4BadFen], agentColor := .w }

/-- Props with a single legal `e4` record without a cached `fen`. -/
def prE4 : ReplayProps := { gameMoves := [recE4], agentColor := .w }

/-- Props with a single illegal record. -/
def prOne : ReplayProps := { gameMoves := [recQh5], agentColor := .w }

/-- An illegal `Qdc7` attempt record. -/
def recQdc7 : MoveRecord := { actual_move := "Qdc7", is_illegal := true }

/-- Props replaying the black-queen-on-d8 position with the single
illegal `Qdc7` attempt. -/
def prOpp : ReplayProps :=
  { initialFen := some posOppQueen, gameMoves := [recQdc7], agentColor := .w }

/-- C3, counterexample: a legal attempt's displayed frame is the cached
`fen` field verbatim, even when it disagrees with the Board Oracle.
Here attempt 0 is a legal `e4` whose cached `fen` is (wrongly) the
starting position: the displayed frame at index 0 has e4 empty, while
applying `e4` via the oracle to the frame at index −1 puts a white pawn
on e4 — so the claimed equality between the frame and the oracle result
fails. -/
theorem claim_C3_counterexample :
    recE4BadFen.is_illegal = false ∧
    (goToMove prBadFen (-1) stInit).boardPosition = startPos ∧
    (goToMove prBadFen 0 stInit).boardPosition.board
      ((4 : Fin 8), (3 : Fin 8)) = none ∧
    (match Chess.moveSan startPos "e4" with
     | some x => some (x.2.board ((4 : Fin 8), (3 : Fin 8)))
     | none => none) = some (some ⟨.p, .w⟩) := by
  refine ⟨rfl, rfl, by decide, by decide⟩

/-- C3, amended: when a legal (not-rejected) attempt carries no cached
`fen`, the frame displayed at its index equals the Board Oracle replay
of the non-rejected attempts from the start through that index — the
cached `fen`, when present, is displayed verbatim instead. -/
theorem claim_C3 (props : ReplayProps) (s : ReplayState) (i : Nat) (m : MoveRecord)
    (hm : props.gameMoves[i]? = some m)
    (hleg : m.is_illegal = false)
    (hfen : m.fen = none) :
    (goToMove props (i : Int) s).boardPosition =
      (props.gameMoves.take (i + 1)).foldl replayStep (baseChess props) := by
  have hrec : recordAt props.gameMoves (i : Int) = some m := by
    unfold recordAt
    simp only [show ¬((i : Int) < 0) from by omega, if_false, ite_false,
      Int.toNat_natCast, hm]
  have hup : replayUpTo props (i : Int) =
      (props.gameMoves.take i).foldl replayStep (baseChess props) := by
    unfold replayUpTo
    simp only [Int.toNat_natCast]
  rw [List.take_succ, hm]
  simp only [Option.toList_some, List.foldl_append, List.foldl_cons,
    List.foldl_nil]
  unfold goToMove
  simp only [show ¬((i : Int) = -1) from by omega, if_false, ite_false, hrec,
    hleg, Bool.false_eq_true, hfen, hup]
  by_cases hmv : m.actual_move = ""
  · simp [replayStep, hleg, hmv, moveSan_empty]
  · simp only [replayStep, hleg, Bool.not_false, Bool.true_and, hmv, ne_eq,
      not_false_eq_true, decide_eq_true_eq, if_true, ite_true]

/-- C3, witness: the amended claim evaluated on a single legal `e4`
attempt without a cached `fen`. -/
theorem claim_C3_witness :
    (goToMove prE4 ((0 : Nat) : Int) stInit).boardPosition =
      (prE4.gameMoves.take 1).foldl replayStep (baseChess prE4) :=
  claim_C3 prE4 stInit 0 recE4 rfl rfl rfl

/-- C5, counterexample: navigation outside the bounds is NOT rejected
and does have a side effect — with a one-attempt sequence, `goToMove 5`
(5 ≥ N = 1) sets the current move index to 5 and `goToMove (-3)`
(−3 < −1) sets it to −3, although it was 0 before the call. -/
theorem claim_C5_counterexample :
    stInit.currentMoveIndex = 0 ∧
    prOne.gameMoves.length = 1 ∧
    (goToMove prOne 5 stInit).currentMoveIndex = 5 ∧
    (goToMove prOne (-3) stInit).currentMoveIndex = -3 :=
  ⟨rfl, rfl, rfl, rfl⟩

/-- C5, amended: `goToMove` performs no bounds check.  For every index
outside the bounds (index < −1 or index ≥ N) it sets the current move
index to the requested index, and displays the initial position (for
index < −1) or the position after replaying every non-rejected attempt
(for index ≥ N). -/
theorem claim_C5 (props : ReplayProps) (s : ReplayState) (index : Int)
    (h : index < -1 ∨ (props.gameMoves.length : Int) ≤ index) :
    (goToMove props index s).currentMoveIndex = index ∧
    (goToMove props index s).boardPosition =
      (if index < -1 then baseChess props
       else props.gameMoves.foldl replayStep (baseChess props)) := by
  have hlen : (0 : Int) ≤ (props.gameMoves.length : Int) := Int.natCast_nonneg _
  have hne : ¬(index = -1) := by omega
  have hrec : recordAt props.gameMoves index = none := by
    unfold recordAt
    rcases h with h | h
    · simp [show index < 0 by omega]
    · by_cases hlt : index < 0
      · simp [hlt]
      · simp only [hlt, if_false, ite_false]
        rw [List.getElem?_eq_none]
        omega
  unfold goToMove
  simp only [hne, if_false, ite_false, hrec]
  refine ⟨trivial, ?_⟩
  unfold replayUpTo
  rcases h with h | h
  · rw [if_pos h]
    have : index.toNat = 0 := by omega
    rw [this]
    simp
  · rw [if_neg (by omega)]
    rw [List.take_of_length_le (by omega)]

/-- C5, witness: the amended claim evaluated at index 5 of a one-attempt
sequence. -/
theorem claim_C5_witness :
    (goToMove prOne 5 stInit).currentMoveIndex = 5 ∧
    (goToMove prOne 5 stInit).boardPosition =
      (if (5 : Int) < -1 then baseChess prOne
       else prOne.gameMoves.foldl replayStep (baseChess prOne)) :=
  claim_C5 prOne stInit 5 (Or.inr (by decide))

/-- C6, counterexample: building the display FEN for an illegal attempt
whose classifier source square holds an OPPONENT piece removes that
opponent piece.  On the black-queen-on-d8 position, white's `"Qdc7"` is
classified with source d8 (the opponent's queen, an ownership mismatch),
and the displayed board at that index has d8 empty — the opponent's
piece was removed, contradicting "an opponent's piece is never
removed". -/
theorem claim_C6_counterexample :
    posOppQueen.board ((3 : Fin 8), (7 : Fin 8)) = some ⟨.q, .b⟩ ∧
    (analyzeIllegalMove posOppQueen "Qdc7" .w).sourceSquare = some "d8" ∧
    (analyzeIllegalMove posOppQueen "Qdc7" .w).description =
      .ownership .q "d8" ∧
    (goToMove prOpp 0 stInit).boardPosition.board
      ((3 : Fin 8), (7 : Fin 8)) = none := by
  refine ⟨by decide, by decide, by decide, by decide⟩

/-- C6, amended: whenever the replay controller builds the display-only
FEN for an illegal attempt whose analysis carries a target square, a
source square and a (non-king) piece type, the displayed board holds a
piece of the classified type in the mover's color on the target square,
the identified source square is emptied regardless of which side owns
the piece standing there, and every other square is unchanged from the
position before the attempt. -/
theorem claim_C6 (props : ReplayProps) (s : ReplayState) (index : Int)
    (m : MoveRecord) (a : IllegalMoveAnalysis) (srcStr tStr : String)
    (srcSq tSq : Sq) (pt : PieceType)
    (hm : recordAt props.gameMoves index = some m)
    (hill : m.is_illegal = true)
    (ha : analyzeIllegalMove (replayUpTo props index) m.actual_move
      props.agentColor = a)
    (htgt : a.targetSquare = some tStr) (htne : tStr ≠ "")
    (ht : parseSq tStr = some tSq)
    (hsrc : a.sourceSquare = some srcStr) (hsne : srcStr ≠ "")
    (hs : parseSq srcStr = some srcSq)
    (hpt : a.pieceType = some pt) (hknotk : pt ≠ .k) :
    (goToMove props index s).boardPosition.board tSq =
      some ⟨pt, props.agentColor⟩ ∧
    (srcSq ≠ tSq → (goToMove props index s).boardPosition.board srcSq = none) ∧
    (∀ x, x ≠ tSq → x ≠ srcSq →
      (goToMove props index s).boardPosition.board x =
        (replayUpTo props index).board x) := by
  have hne : ¬(index = -1) := by
    intro hi
    rw [hi] at hm
    unfold recordAt at hm
    simp at hm
  unfold goToMove
  simp only [hne, if_false, ite_false, hm, hill, if_true, ite_true, ha, htgt,
    hsrc, hpt, strTruthy, htne, hsne, ne_eq, not_false_eq_true,
    decide_eq_true_eq, Option.getD_some]
  unfold Chess.removeSq Chess.putPiece
  simp only [hs, ht, hknotk, not_false_eq_true, decide_eq_true_eq, false_and,
    decide_False, Bool.false_and, Bool.false_eq_true, if_false, ite_false]
  refine ⟨boardSet_same _ _ _, fun hne2 => ?_, fun x hx1 hx2 => ?_⟩
  · rw [boardSet_other _ _ _ _ hne2, boardSet_same]
  · rw [boardSet_other _ _ _ _ hx1, boardSet_other _ _ _ _ hx2]

/-- C6, witness: the amended claim evaluated on the black-queen-on-d8
position with the illegal `"Qdc7"` attempt — the white queen appears on
c7, d8 (the opponent's queen) is emptied, and e1 is untouched. -/
theorem claim_C6_witness :
    (goToMove prOpp 0 stInit).boardPosition.board ((2 : Fin 8), (6 : Fin 8)) =
      some ⟨.q, .w⟩ ∧
    (goToMove prOpp 0 stInit).boardPosition.board ((3 : Fin 8), (7 : Fin 8)) =
      none ∧
    (goToMove prOpp 0 stInit).boardPosition.board ((4 : Fin 8), (0 : Fin 8)) =
      (replayUpTo prOpp 0).board ((4 : Fin 8), (0 : Fin 8)) :=
  have h := claim_C6 prOpp stInit 0 recQdc7
    { type := .illegal, pieceType := some .q, targetSquare := some "c7",
      sourceSquare := some "d8", description := .ownership .q "d8" }
    "d8" "c7" ((3 : Fin 8), (7 : Fin 8)) ((2 : Fin 8), (6 : Fin 8)) .q
    rfl rfl (by decide) rfl (by decide) (by decide) rfl (by decide) (by decide)
    rfl (by decide)
  ⟨h.1, h.2.1 (by decide), h.2.2 _ (by decide) (by decide)⟩

end ChessLLM
